import Mathlib

/-!
Verification of the adaptive quiz engine in `src/app.py` (the spec calls its
parts the Generation Client, Schema Normalizer, Question Assembler, Option
Shuffler and Difficulty State Machine).  The Python code is shallowly embedded:
dictionaries parsed from JSON become `JValue`, the Flask session becomes
`SessionState`, the random choices made by `random.sample` and `random.shuffle`
become explicit parameters, and a Python exception that escapes a function is
an `Except.error`.
-/

/-- JSON-like values as produced by `json.loads`, restricted to the leaf kinds
the program inspects.  `jnull` doubles as the Python value `None` (which is
what `json.loads` returns for a JSON `null` and what `dict.get` returns for a
missing key).  Numeric and boolean leaves are omitted; no claim involves
them. -/
inductive JValue where
  | jstr (s : String)
  | jarr (xs : List JValue)
  | jobj (fields : List (String × JValue))
  | jnull
  deriving Repr

mutual

/-- Structural equality of `JValue`s (Python `==` on the decoded values). -/
def JValue.beq : JValue → JValue → Bool
  | .jstr a, .jstr b => a == b
  | .jnull, .jnull => true
  | .jarr xs, .jarr ys => JValue.beqList xs ys
  | .jobj fs, .jobj gs => JValue.beqFields fs gs
  | _, _ => false

def JValue.beqList : List JValue → List JValue → Bool
  | [], [] => true
  | x :: xs, y :: ys => JValue.beq x y && JValue.beqList xs ys
  | _, _ => false

def JValue.beqFields : List (String × JValue) → List (String × JValue) → Bool
  | [], [] => true
  | (k, v) :: xs, (l, w) :: ys => k == l && JValue.beq v w && JValue.beqFields xs ys
  | _, _ => false

end

mutual

theorem JValue.beq_iff : ∀ a b : JValue, JValue.beq a b = true ↔ a = b
  | .jstr a, .jstr b => by simp [JValue.beq]
  | .jstr _, .jarr _ => by simp [JValue.beq]
  | .jstr _, .jobj _ => by simp [JValue.beq]
  | .jstr _, .jnull => by simp [JValue.beq]
  | .jarr _, .jstr _ => by simp [JValue.beq]
  | .jarr xs, .jarr ys => by
      simpa [JValue.beq] using JValue.beqList_iff xs ys
  | .jarr _, .jobj _ => by simp [JValue.beq]
  | .jarr _, .jnull => by simp [JValue.beq]
  | .jobj _, .jstr _ => by simp [JValue.beq]
  | .jobj _, .jarr _ => by simp [JValue.beq]
  | .jobj fs, .jobj gs => by
      simpa [JValue.beq] using JValue.beqFields_iff fs gs
  | .jobj _, .jnull => by simp [JValue.beq]
  | .jnull, .jstr _ => by simp [JValue.beq]
  | .jnull, .jarr _ => by simp [JValue.beq]
  | .jnull, .jobj _ => by simp [JValue.beq]
  | .jnull, .jnull => by simp [JValue.beq]

theorem JValue.beqList_iff : ∀ xs ys : List JValue, JValue.beqList xs ys = true ↔ xs = ys
  | [], [] => by simp [JValue.beqList]
  | [], _ :: _ => by simp [JValue.beqList]
  | _ :: _, [] => by simp [JValue.beqList]
  | x :: xs, y :: ys => by
      simp [JValue.beqList, JValue.beq_iff x y, JValue.beqList_iff xs ys]

theorem JValue.beqFields_iff :
    ∀ xs ys : List (String × JValue), JValue.beqFields xs ys = true ↔ xs = ys
  | [], [] => by simp [JValue.beqFields]
  | [], _ :: _ => by simp [JValue.beqFields]
  | _ :: _, [] => by simp [JValue.beqFields]
  | (k, v) :: xs, (l, w) :: ys => by
      simp [JValue.beqFields, JValue.beq_iff v w, JValue.beqFields_iff xs ys, and_assoc,
        Prod.ext_iff]

end

instance : DecidableEq JValue := fun a b =>
  decidable_of_iff (JValue.beq a b = true) (JValue.beq_iff a b)

/-- Python `d.get(k)`: the value of the first binding of key `k`, if any.  Python
dictionaries preserve insertion order and never hold a duplicate key; using the
first binding matches both. -/
def jget (d : List (String × JValue)) (k : String) : Option JValue :=
  (d.find? fun kv => kv.1 == k).map fun kv => kv.2

/-- Python truthiness of the modelled values: empty strings, empty lists,
empty dicts and `None` are falsy. -/
def truthy : JValue → Bool
  | .jstr s => !(s == "")
  | .jarr xs => !xs.isEmpty
  | .jobj fs => !fs.isEmpty
  | .jnull => false

/-- Python `a or b` for two `dict.get` results (line 66 of app.py): the first operand
if it is truthy, otherwise the second operand, with a missing value read as
`None`. -/
def pyOr (a b : Option JValue) : JValue :=
  match a with
  | some v => if truthy v then v else b.getD .jnull
  | none => b.getD .jnull

example : jget [("a", .jstr "x"), ("b", .jnull)] "b" = some .jnull := by decide
example : pyOr (some (.jstr "")) none = .jnull := by decide

deriving instance DecidableEq for Except

/-- Contiguous-substring test on character lists: Python `needle in haystack`
for two strings. -/
def strContains (needle haystack : List Char) : Bool :=
  (List.range (haystack.length + 1)).any fun i =>
    ((haystack.drop i).take needle.length) == needle

/-- The dictionary produced by `normalize_question` (app.py lines 71-76 and
82-88) and by the fallback of `generate_question`.  Field values are kept as
raw `JValue`s exactly as the code stores them; `question` is `jnull` when both
the `question` and `prompt` keys are missing or falsy (Python `None`). -/
structure NQ where
  question : JValue
  correct : JValue
  distractors : JValue
  explanation : JValue
  deriving DecidableEq, Repr

/-- app.py lines 65-90, for a dict argument (`data` bound to `.jobj d`).
`Except.error ()` marks a Python exception escaping the function (the header
comment of the source claims it never raises, but e.g. a non-string label that
is itself a list makes `label in opts` raise `TypeError`).  `Except.ok none`
is the `return None` path. -/
def normalize_obj (d : List (String × JValue)) : Except Unit (Option NQ) :=
  let question := pyOr (jget d "question") (jget d "prompt")
  let explanation := (jget d "explanation").getD (.jstr "No explanation provided.")
  -- Schema A (line 70): keyed on the mere presence of both keys; the values
  -- are passed through verbatim, with no arity, emptiness or distinctness check.
  if ((jget d "correct_answer").isSome ∧ (jget d "distractors").isSome : Prop) then
    .ok (some ⟨question, (jget d "correct_answer").getD .jnull,
      (jget d "distractors").getD .jnull, explanation⟩)
  -- Schema B (line 79), also keyed on presence alone.
  else if ((jget d "options").isSome ∧ (jget d "correct_answer").isSome : Prop) then
    let opts := (jget d "options").getD .jnull
    let label := (jget d "correct_answer").getD .jnull
    -- `label in opts` followed by `opts[label]` and `opts.items()`:
    match opts, label with
    | .jobj fs, .jstr s =>
      match fs.find? (fun kv => kv.1 == s) with
      | some kv =>
          .ok (some ⟨question, kv.2,
            .jarr ((fs.filter fun kv => !(kv.1 == s)).map fun kv => kv.2), explanation⟩)
      | none => .ok none
    | .jobj _, .jnull => .ok none      -- None is hashable but never a key of a JSON object
    | .jobj _, _ => .error ()           -- unhashable label: `label in opts` raises TypeError
    | .jstr t, .jstr s =>
        -- `label in opts` is a substring test; on a hit, `opts[label]` raises TypeError
        if strContains s.data t.data then .error () else .ok none
    | .jstr _, _ => .error ()           -- `in <str>` requires a string operand: TypeError
    | .jarr xs, lab =>
        -- list membership; on a hit, `opts[label]` with a non-int index raises TypeError
        if lab ∈ xs then .error () else .ok none
    | .jnull, _ => .error ()            -- `in None` raises TypeError
  else
    .ok none

/-- The function `normalize_question(data)` for an arbitrary decoded JSON value.  A
non-object argument raises `AttributeError` at `data.get` (line 66). -/
def normalize_question (data : JValue) : Except Unit (Option NQ) :=
  match data with
  | .jobj d => normalize_obj d
  | _ => .error ()

example :
    normalize_question (.jobj [("question", .jstr "Q"), ("correct_answer", .jstr "a"),
      ("distractors", .jarr [.jstr "b", .jstr "c", .jstr "d"])]) =
    .ok (some ⟨.jstr "Q", .jstr "a", .jarr [.jstr "b", .jstr "c", .jstr "d"],
      .jstr "No explanation provided."⟩) := by decide

example :
    normalize_question (.jobj [("question", .jstr "Q"), ("correct_answer", .jstr "B"),
      ("options", .jobj [("A", .jstr "w"), ("B", .jstr "x"), ("C", .jstr "y"),
        ("D", .jstr "z")])]) =
    .ok (some ⟨.jstr "Q", .jstr "x", .jarr [.jstr "w", .jstr "y", .jstr "z"],
      .jstr "No explanation provided."⟩) := by decide

example : normalize_question (.jobj [("question", .jstr "Q")]) = .ok none := by decide
example : normalize_question (.jarr []) = .error () := by decide

/-- The observable part of a backend response (app.py lines 47-55):
`output_text` is `some s` when the attribute exists (with string value `s`),
and `parts_text` is `some s` when `candidates` is non-empty with a non-empty
`parts` list whose first part has text `s`. -/
structure GeminiResponse where
  output_text : Option String
  parts_text : Option String
  deriving DecidableEq, Repr

/-- What one `client.models.generate_content` invocation does: raise an
exception (transient = `ServiceUnavailable` or `ResourceExhausted`, otherwise
any other exception class), or return a response object. -/
inductive AttemptOutcome where
  | raises (transient : Bool)
  | responds (r : GeminiResponse)
  deriving DecidableEq, Repr

/-- Python `str.strip()`: drop leading and trailing whitespace. -/
def pyStrip (s : String) : String :=
  ⟨((s.data.dropWhile Char.isWhitespace).reverse.dropWhile Char.isWhitespace).reverse⟩

/-- Text extraction from a response, lines 47-55: the `output_text` attribute
if present and truthy, else the first part of the first candidate if present
(that one is returned even when empty), else nothing, in which case the loop
body falls through and the next attempt begins. -/
def extractText (r : GeminiResponse) : Option String :=
  match r.output_text with
  | some s => if s == "" then r.parts_text.map pyStrip else some (pyStrip s)
  | none => r.parts_text.map pyStrip

/-- Observable outcome of one `call_gemini` run: the returned value (with
`Except.error ()` for an exception escaping the function), the arguments of the
`time.sleep` calls made, and how many times the backend was invoked. -/
structure GeminiRun where
  result : Except Unit (Option String)
  sleeps : List ℕ
  calls : ℕ
  deriving DecidableEq, Repr

/-- The `for attempt in range(4)` loop of app.py lines 35-59, with the backend
abstracted as a map from the attempt index to that attempt's outcome.

The `except` clause on line 57 names `ServiceUnavailable` and
`ResourceExhausted`, but app.py only ever imports `genai`; neither name is
defined anywhere in the module, so evaluating the clause raises `NameError`.
Hence every exception raised by an attempt - transient or not - escapes
`call_gemini`, which the `.raises` branch records. -/
def callGeminiLoop (b : ℕ → AttemptOutcome) :
    ℕ → ℕ → ℕ → List ℕ → ℕ → GeminiRun
  | 0, _, _, sleeps, calls => ⟨.ok none, sleeps, calls⟩
  | fuel + 1, attempt, delay, sleeps, calls =>
    -- lines 37-39: sleep before every attempt after the first, then double
    let sleeps1 := if 0 < attempt then sleeps ++ [delay] else sleeps
    let delay1 := if 0 < attempt then 2 * delay else delay
    match b attempt with
    | .raises _ => ⟨.error (), sleeps1, calls + 1⟩
    | .responds r =>
      match extractText r with
      | some t => ⟨.ok (some t), sleeps1, calls + 1⟩
      | none => callGeminiLoop b fuel (attempt + 1) delay1 sleeps1 (calls + 1)

/-- The function `call_gemini(prompt)`, app.py lines 33-60 (`delay = 2`, 4 attempts).  The
prompt only influences the backend, which the parameter `b` abstracts. -/
def call_gemini (b : ℕ → AttemptOutcome) : GeminiRun :=
  callGeminiLoop b 4 0 2 [] 0

/-- Variant of the loop in which the names on line 57 are read as the intended
transient `google.api_core` exception classes, i.e. the `except` clause works
as its text suggests: transient errors are caught and the loop continues,
while any other exception still escapes. -/
def callGeminiResolvedLoop (b : ℕ → AttemptOutcome) :
    ℕ → ℕ → ℕ → List ℕ → ℕ → GeminiRun
  | 0, _, _, sleeps, calls => ⟨.ok none, sleeps, calls⟩
  | fuel + 1, attempt, delay, sleeps, calls =>
    let sleeps1 := if 0 < attempt then sleeps ++ [delay] else sleeps
    let delay1 := if 0 < attempt then 2 * delay else delay
    match b attempt with
    | .raises true => callGeminiResolvedLoop b fuel (attempt + 1) delay1 sleeps1 (calls + 1)
    | .raises false => ⟨.error (), sleeps1, calls + 1⟩
    | .responds r =>
      match extractText r with
      | some t => ⟨.ok (some t), sleeps1, calls + 1⟩
      | none => callGeminiResolvedLoop b fuel (attempt + 1) delay1 sleeps1 (calls + 1)

/-- Variant: `call_gemini` under the resolved-names reading of line 57. -/
def call_gemini_resolved (b : ℕ → AttemptOutcome) : GeminiRun :=
  callGeminiResolvedLoop b 4 0 2 [] 0

example : call_gemini (fun _ => .raises true) = ⟨.error (), [], 1⟩ := by decide
example : call_gemini (fun _ => .responds ⟨none, none⟩) = ⟨.ok none, [2, 4, 8], 4⟩ := by
  decide
example : call_gemini_resolved (fun _ => .raises true) = ⟨.ok none, [2, 4, 8], 4⟩ := by
  decide
example :
    call_gemini (fun _ => .responds ⟨some " hi ", none⟩) = ⟨.ok (some "hi"), [], 1⟩ := by
  decide

/-- The hardcoded fallback dictionary of app.py lines 157-166. -/
def FALLBACK_QUESTION : NQ :=
  ⟨.jstr "Choose the correct sentence.",
   .jstr "I am ready.",
   .jarr [.jstr "I am read.", .jstr "I ready am.", .jstr "I being ready."],
   .jstr "Fallback question due to generation issues."⟩

/-- The `for _ in range(3)` loop of `generate_question` (app.py lines 143-154).
`parse` abstracts `json.loads` (`none` = it raised, which lines 147-150 catch);
`b i` is the backend behaviour seen by the `i`-th `call_gemini` invocation.
An `Except.error` from `call_gemini` propagates: nothing in
`generate_question` catches it.  A parse result that is not an object makes
`normalize_question` raise (`AttributeError` on `data.get`), which is equally
uncaught. -/
def generateLoop (parse : String → Option JValue) (b : ℕ → ℕ → AttemptOutcome) :
    ℕ → ℕ → Except Unit NQ
  | 0, _ => .ok FALLBACK_QUESTION
  | fuel + 1, i =>
    match (call_gemini (b i)).result with
    | .error () => .error ()
    | .ok raw =>
      -- line 145: `if not raw: continue` treats None and "" alike
      match raw with
      | none => generateLoop parse b fuel (i + 1)
      | some t =>
        if t == "" then generateLoop parse b fuel (i + 1)
        else
          match parse t with
          | none => generateLoop parse b fuel (i + 1)
          | some data =>
            match normalize_question data with
            | .error () => .error ()
            | .ok (some q) => .ok q
            | .ok none => generateLoop parse b fuel (i + 1)

/-- The function `generate_question(category, difficulty, qno)`, app.py lines 142-166.  The
prompt built from the three arguments only influences the backend, which `b`
abstracts, so the arguments are otherwise unused here exactly as in the
source, where they only feed `build_prompt`. -/
def generate_question (_category : String) (_difficulty _qno : ℕ)
    (parse : String → Option JValue) (b : ℕ → ℕ → AttemptOutcome) : Except Unit NQ :=
  generateLoop parse b 3 0

example :
    generate_question "grammar" 4 1 (fun _ => none) (fun _ _ => .responds ⟨none, none⟩) =
    .ok FALLBACK_QUESTION := by decide

example :
    generate_question "grammar" 4 1 (fun _ => none) (fun _ _ => .raises true) =
    .error () := by decide

/-- The function `shuffle_options(correct, distractors)`, app.py lines 171-177.  The
parameter `sh` stands for the uniformly random in-place permutation performed
by `random.shuffle`; the theorems constrain it to permute its input where the
claim needs that.  The second component is the first label (in the fixed
order A, B, C, D) whose zipped text equals `correct`; `none` models the
`StopIteration` raised by `next` when no text matches. -/
def shuffle_options {α : Type} [DecidableEq α] (correct : α) (distractors : List α)
    (sh : List α → List α) : List (String × α) × Option String :=
  let options := sh (distractors ++ [correct])
  let labels : List String := ["A", "B", "C", "D"]
  let option_map := labels.zip options
  (option_map, ((option_map.find? fun kv => decide (kv.2 = correct)).map fun kv => kv.1))

example :
    shuffle_options "c" ["x", "y", "z"] (fun _ => ["y", "c", "x", "z"]) =
    ([("A", "y"), ("B", "c"), ("C", "x"), ("D", "z")], some "B") := by decide

/-- app.py line 15. -/
def TOTAL_QUESTIONS : ℕ := 10

/-- app.py lines 17-23. -/
def QUESTION_CATEGORIES : List String :=
  ["grammar", "vocabulary_meaning", "sentence_paraphrase", "inference", "error_detection"]

/-- The dictionary stored under `session["current_q"]` (app.py lines 212-217).
`correct_label` is a plain string: when `shuffle_options` yields no label the
route raises before storing anything. -/
structure CurrentQ where
  question : JValue
  options : List (String × JValue)
  correct_label : String
  explanation : JValue
  deriving DecidableEq, Repr

/-- The Flask session after `/start` has run: the four keys set on lines
189-194 are always present, `current_q` optionally so.  A session in which
`q_index` is absent (before any `/start`) is modelled as `none` at the route
boundaries. -/
structure SessionState where
  q_index : ℕ
  difficulty : ℕ
  history : List (ℕ × Bool)
  categories : List String
  current_q : Option CurrentQ
  deriving DecidableEq, Repr

/-- The `/start` route, app.py lines 186-195.  `sample` stands for the value
of `random.sample(QUESTION_CATEGORIES, len(QUESTION_CATEGORIES))`, i.e. an
arbitrary permutation of the category list. -/
def start (sample : List String) : SessionState :=
  ⟨0, 4, [], sample, none⟩

/-- Line 206: `session["categories"][session["q_index"] % len(QUESTION_CATEGORIES)]`.
`none` models the `IndexError` a too-short list would raise (never the case
for sessions produced by `start`). -/
def served_category (s : SessionState) : Option String :=
  s.categories.get? (s.q_index % QUESTION_CATEGORIES.length)

/-- What the `/question` route answers with. -/
inductive QuestionView where
  | redirectStart
  | redirectResult
  | page (q : CurrentQ) (qno : ℕ) (difficulty : ℕ)
  deriving DecidableEq, Repr

/-- The `/question` route, app.py lines 197-224.  Returns the updated session
together with the rendered view; `Except.error ()` is an exception escaping
the route (e.g. one propagating out of `generate_question`). -/
def question (sess : Option SessionState) (parse : String → Option JValue)
    (b : ℕ → ℕ → AttemptOutcome) (sh : List JValue → List JValue) :
    Except Unit (Option SessionState × QuestionView) :=
  match sess with
  | none => .ok (none, .redirectStart)             -- line 199: no q_index yet
  | some s =>
    if TOTAL_QUESTIONS ≤ s.q_index then .ok (some s, .redirectResult)  -- line 202
    else
      match s.current_q with
      | some cq => .ok (some s, .page cq (s.q_index + 1) s.difficulty)
      | none =>
        match served_category s with
        | none => .error ()
        | some category =>
          match generate_question category s.difficulty (s.q_index + 1) parse b with
          | .error () => .error ()
          | .ok q =>
            match q.distractors with
            | .jarr ds =>
              match shuffle_options q.correct ds sh with
              | (option_map, some correct_label) =>
                let cq : CurrentQ := ⟨q.question, option_map, correct_label, q.explanation⟩
                .ok (some { s with current_q := some cq },
                     .page cq (s.q_index + 1) s.difficulty)
              | (_, none) => .error ()   -- `next(...)` raised StopIteration (line 176)
            | _ => .error ()             -- `distractors + [correct]` raised TypeError

/-- What the `/answer` route answers with. -/
inductive AnswerView where
  | redirectQuestion
  | feedback (correct : Bool) (correct_label : String) (explanation : JValue)
  deriving DecidableEq, Repr

/-- The `/answer` route, app.py lines 226-250.  `user_ans` is
`request.form.get("answer")`, which may be absent. -/
def answer (sess : Option SessionState) (user_ans : Option String) :
    Option SessionState × AnswerView :=
  match sess with
  | none => (none, .redirectQuestion)              -- "current_q" not in session
  | some s =>
    match s.current_q with
    | none => (some s, .redirectQuestion)          -- line 228-229
    | some q =>
      let is_correct := decide (user_ans = some q.correct_label)
      let s1 : SessionState :=
        { s with
          history := s.history ++ [(s.difficulty, is_correct)],
          difficulty :=
            if is_correct then min 10 (s.difficulty + 1) else max 1 (s.difficulty - 1),
          q_index := s.q_index + 1,
          current_q := none }
      (some s1, .feedback is_correct q.correct_label q.explanation)

/-- Python `round(x)` / `round(x, 0)`: round half to even (banker's
rounding), which is what CPython implements for floats.  The embedding works
in exact rational arithmetic; for the small integer-derived values the program
produces this coincides with the float computation. -/
def roundHalfEven (q : ℚ) : ℤ :=
  let f := ⌊q⌋
  if q - f < 1 / 2 then f
  else if (1 : ℚ) / 2 < q - f then f + 1
  else if f % 2 = 0 then f else f + 1

/-- Python `round(x, 1)`: round to one decimal place. -/
def round1 (q : ℚ) : ℚ := (roundHalfEven (10 * q) : ℚ) / 10

/-- Python `int(x)` on a float: truncation toward zero. -/
def ratTrunc (q : ℚ) : ℤ := if q < 0 then ⌈q⌉ else ⌊q⌋

/-- What the `/result` route answers with. -/
inductive ResultView where
  | redirectStart
  | page (avg_level accuracy : ℚ) (score : ℤ)
  deriving DecidableEq, Repr

/-- The `/result` route, app.py lines 252-267: `correct` answers counted from
history, `avg_level = round(mean of difficulties, 1)`,
`score = min(100, int(avg_level * 8 + correct * 2))` and
`accuracy = round(100 * correct / len(history), 1)`. -/
def result (sess : Option SessionState) : ResultView :=
  let history := (sess.map fun s => s.history).getD []   -- session.get("history", [])
  if history.isEmpty then .redirectStart
  else
    let correct : ℕ := (history.filter fun e => e.2).length
    let avg_level : ℚ := round1 ((history.map fun e => (e.1 : ℚ)).sum / history.length)
    let score : ℤ := min 100 (ratTrunc (avg_level * 8 + (correct : ℚ) * 2))
    .page avg_level (round1 (100 * (correct : ℚ) / history.length)) score

example :
    result (some ⟨3, 6, [(4, true), (5, true), (6, false)], [], none⟩) =
    .page 5 (667 / 10) 44 := by
  norm_num [result, round1, roundHalfEven, ratTrunc]

example :
    result (some ⟨3, 6, [(4, true), (5, true), (5, false)], [], none⟩) =
    .page (47 / 10) (667 / 10) 41 := by
  norm_num [result, round1, roundHalfEven, ratTrunc]

example : result none = .redirectStart := by rfl

/-- C6: for a session with difficulty in [1,10] and a pending question,
submitting an answer appends exactly one (difficulty-at-time, correctness)
pair to the history, advances the position by exactly one, clears the pending
question, and moves the difficulty up by one on a correct answer (capped at
10) and down by one on an incorrect answer (floored at 1). -/
theorem answer_difficulty_staircase (s : SessionState) (q : CurrentQ) (ans : Option String)
    (hq : s.current_q = some q) (hlo : 1 ≤ s.difficulty) (hhi : s.difficulty ≤ 10) :
    ∃ c s1, answer (some s) ans = (some s1, .feedback c q.correct_label q.explanation) ∧
      c = decide (ans = some q.correct_label) ∧
      s1.history = s.history ++ [(s.difficulty, c)] ∧
      s1.history.length = s.history.length + 1 ∧
      s1.q_index = s.q_index + 1 ∧
      s1.current_q = none ∧
      (c = true → (s.difficulty < 10 → s1.difficulty = s.difficulty + 1) ∧
        (s.difficulty = 10 → s1.difficulty = 10)) ∧
      (c = false → (1 < s.difficulty → s1.difficulty = s.difficulty - 1) ∧
        (s.difficulty = 1 → s1.difficulty = 1)) := by
  refine ⟨decide (ans = some q.correct_label),
    { s with
      history := s.history ++ [(s.difficulty, decide (ans = some q.correct_label))],
      difficulty := if decide (ans = some q.correct_label) then min 10 (s.difficulty + 1)
        else max 1 (s.difficulty - 1),
      q_index := s.q_index + 1,
      current_q := none }, ?_, rfl, rfl, by simp, rfl, rfl, ?_, ?_⟩
  · simp [answer, hq]
  · intro hc
    simp only [hc, if_true]
    exact ⟨fun h => by omega, fun h => by omega⟩
  · intro hc
    simp only [hc, if_false, Bool.false_eq_true]
    exact ⟨fun h => by omega, fun h => by omega⟩

theorem answer_difficulty_staircase_witness :
    ∃ c s1,
      answer (some ⟨2, 4, [(4, true)], [], some ⟨.jnull, [], "A", .jnull⟩⟩) (some "A") =
        (some s1, .feedback c "A" .jnull) ∧
      c = decide ((some "A" : Option String) = some "A") ∧
      s1.history = [(4, true)] ++ [(4, c)] ∧
      s1.history.length = [(4, true)].length + 1 ∧
      s1.q_index = 2 + 1 ∧
      s1.current_q = none ∧
      (c = true → (4 < 10 → s1.difficulty = 4 + 1) ∧ (4 = 10 → s1.difficulty = 10)) ∧
      (c = false → (1 < 4 → s1.difficulty = 4 - 1) ∧ (4 = 1 → s1.difficulty = 1)) :=
  answer_difficulty_staircase ⟨2, 4, [(4, true)], [], some ⟨.jnull, [], "A", .jnull⟩⟩
    ⟨.jnull, [], "A", .jnull⟩ (some "A") rfl (by decide) (by decide)

/-- C8: while a question is pending, the `/question` route returns it
unchanged without touching the session, whatever the generation backend,
parser or shuffler would do; hence a second fetch without an intervening
answer yields the identical page (same prompt, option map, concealed correct
label and explanation).  The second conjunct covers the fresh-fetch case:
after a first fetch stores a question, a repeat fetch with arbitrary
different oracles reproduces exactly the stored page. -/
theorem question_fetch_idempotent (s : SessionState)
    (p1 p2 : String → Option JValue) (b1 b2 : ℕ → ℕ → AttemptOutcome)
    (sh1 sh2 : List JValue → List JValue) (hlt : s.q_index < TOTAL_QUESTIONS) :
    (∀ cq, s.current_q = some cq →
      question (some s) p1 b1 sh1 = .ok (some s, .page cq (s.q_index + 1) s.difficulty) ∧
      question (some s) p2 b2 sh2 = .ok (some s, .page cq (s.q_index + 1) s.difficulty)) ∧
    (∀ s1 v, s.current_q = none → question (some s) p1 b1 sh1 = .ok (some s1, v) →
      ∃ cq1, s1.current_q = some cq1 ∧
        v = .page cq1 (s.q_index + 1) s.difficulty ∧
        s1.q_index = s.q_index ∧ s1.difficulty = s.difficulty ∧
        question (some s1) p2 b2 sh2 = .ok (some s1, .page cq1 (s.q_index + 1) s.difficulty)) := by
  have hnle : ¬ TOTAL_QUESTIONS ≤ s.q_index := by omega
  constructor
  · intro cq hcq
    constructor <;> simp [question, hnle, hcq]
  · intro s1 v hnone h1
    simp only [question, hnle, if_false, hnone] at h1
    split at h1
    · exact Except.noConfusion h1
    rename_i category hsc
    split at h1
    · exact Except.noConfusion h1
    rename_i q hg
    split at h1
    · rename_i ds hds
      split at h1
      · rename_i option_map correct_label hsh
        simp only [Except.ok.injEq, Prod.mk.injEq, Option.some.injEq] at h1
        obtain ⟨hs1, hv⟩ := h1
        refine ⟨⟨q.question, option_map, correct_label, q.explanation⟩, ?_, ?_, ?_, ?_, ?_⟩ <;>
          subst hs1 <;> simp [question, hnle, ← hv]
      · exact Except.noConfusion h1
    · exact Except.noConfusion h1

theorem question_fetch_idempotent_witness :
    question (some ⟨0, 4, [], [], some ⟨.jnull, [("A", .jstr "x")], "A", .jnull⟩⟩)
        (fun _ => none) (fun _ _ => .raises true) id =
      .ok (some ⟨0, 4, [], [], some ⟨.jnull, [("A", .jstr "x")], "A", .jnull⟩⟩,
        .page ⟨.jnull, [("A", .jstr "x")], "A", .jnull⟩ (0 + 1) 4) ∧
    question (some ⟨0, 4, [], [], some ⟨.jnull, [("A", .jstr "x")], "A", .jnull⟩⟩)
        (fun _ => some .jnull) (fun _ _ => .responds ⟨none, none⟩) id =
      .ok (some ⟨0, 4, [], [], some ⟨.jnull, [("A", .jstr "x")], "A", .jnull⟩⟩,
        .page ⟨.jnull, [("A", .jstr "x")], "A", .jnull⟩ (0 + 1) 4) :=
  (question_fetch_idempotent ⟨0, 4, [], [], some ⟨.jnull, [("A", .jstr "x")], "A", .jnull⟩⟩
      (fun _ => none) (fun _ => some .jnull) (fun _ _ => .raises true)
      (fun _ _ => .responds ⟨none, none⟩) id id (by decide)).1
    ⟨.jnull, [("A", .jstr "x")], "A", .jnull⟩ rfl

/-- C9: once an answer has been submitted for the pending question, the
pending state is cleared, and a second `/answer` POST for the same question
is rejected with a redirect and leaves the session - in particular the answer
history, the difficulty and the sequence position - completely unchanged. -/
theorem answer_twice_rejected (s : SessionState) (q : CurrentQ) (a1 a2 : Option String)
    (h : s.current_q = some q) :
    ∃ s1, (answer (some s) a1).1 = some s1 ∧ s1.current_q = none ∧
      ∃ s2, answer (some s1) a2 = (some s2, .redirectQuestion) ∧
        s2 = s1 ∧ s2.history = s1.history ∧ s2.difficulty = s1.difficulty ∧
        s2.q_index = s1.q_index := by
  refine ⟨{ s with
      history := s.history ++ [(s.difficulty, decide (a1 = some q.correct_label))],
      difficulty := if decide (a1 = some q.correct_label) then min 10 (s.difficulty + 1)
        else max 1 (s.difficulty - 1),
      q_index := s.q_index + 1,
      current_q := none }, by simp [answer, h], rfl, ?_⟩
  exact ⟨_, by simp [answer], rfl, rfl, rfl, rfl⟩

theorem answer_twice_rejected_witness :
    ∃ s1,
      (answer (some ⟨0, 4, [], [], some ⟨.jnull, [], "B", .jnull⟩⟩) (some "B")).1 = some s1 ∧
      s1.current_q = none ∧
      ∃ s2, answer (some s1) (some "B") = (some s2, .redirectQuestion) ∧
        s2 = s1 ∧ s2.history = s1.history ∧ s2.difficulty = s1.difficulty ∧
        s2.q_index = s1.q_index :=
  answer_twice_rejected ⟨0, 4, [], [], some ⟨.jnull, [], "B", .jnull⟩⟩
    ⟨.jnull, [], "B", .jnull⟩ (some "B") (some "B") rfl

/-- C1 counterexample: for the history [(4,T),(5,T),(5,F)] the code returns
score 41 - `int()` truncates 4.7 × 8 + 2 × 2 = 41.6 - while the formula of the
claim, `min(100, round(averageDifficulty × 8 + correctCount × 2))`, yields
round(41.6) = 42.  The returned accuracy is the rounded percentage 66.7, not
the fraction correctCount / N = 2/3 the claim states. -/
theorem result_score_truncates_cex :
    result (some ⟨3, 6, [(4, true), (5, true), (5, false)], [], none⟩) =
      .page (47 / 10) (667 / 10) 41 ∧
    min 100 (roundHalfEven ((47 : ℚ) / 10 * 8 + 2 * 2)) = 42 ∧
    (41 : ℤ) ≠ 42 ∧
    ((667 : ℚ) / 10 ≠ 2 / 3) := by
  refine ⟨by norm_num [result, round1, roundHalfEven, ratTrunc], ?_, by decide, by norm_num⟩
  norm_num [roundHalfEven]

/-- C1 (amended): for every non-empty history the result page carries
averageDifficulty = the mean of the difficulty-at-time values rounded to one
decimal place, accuracy = the percentage 100 × correctCount / N rounded to
one decimal place, and score = min(100, trunc(averageDifficulty × 8 +
correctCount × 2)) where trunc is truncation toward zero (Python `int`), not
rounding; on the spec scenario [(4,T),(5,T),(6,F)] this gives
averageDifficulty 5.0, accuracy 66.7 and score 44 as the claim states. -/
theorem result_formula (s : SessionState) (hne : s.history ≠ []) :
    result (some s) =
      .page (round1 ((s.history.map fun e => (e.1 : ℚ)).sum / s.history.length))
        (round1 (100 * (s.history.countP fun e => e.2 : ℚ) / s.history.length))
        (min 100 (ratTrunc
          (round1 ((s.history.map fun e => (e.1 : ℚ)).sum / s.history.length) * 8 +
            (s.history.countP fun e => e.2 : ℚ) * 2))) ∧
    result (some ⟨3, 6, [(4, true), (5, true), (6, false)], [], none⟩) =
      .page 5 (667 / 10) 44 := by
  constructor
  · have hni : s.history.isEmpty = false := by
      cases hh : s.history with
      | nil => exact absurd hh hne
      | cons a t => rfl
    simp [result, hni, List.countP_eq_length_filter]
  · norm_num [result, round1, roundHalfEven, ratTrunc]

theorem result_formula_witness :
    result (some ⟨3, 6, [(4, true), (5, true), (6, false)], [], none⟩) =
      .page 5 (667 / 10) 44 :=
  (result_formula ⟨1, 4, [(4, true)], [], none⟩ (by simp)).2

/-- C5 counterexample: with the total question count N = 10, `/start` stores a
category sequence of length 5 - one `random.sample` pass, not a length-N
sequence - and position 5 is served the same category as position 0, i.e. the
single fixed sample is cycled instead of a fresh shuffled pass being used
beyond the first. -/
theorem start_category_sequence_cex :
    (start QUESTION_CATEGORIES).categories.length = 5 ∧
    TOTAL_QUESTIONS = 10 ∧ ((5 : ℕ) ≠ 10) ∧
    served_category { start QUESTION_CATEGORIES with q_index := 5 } =
      served_category (start QUESTION_CATEGORIES) := by decide

/-- C5 (amended): `/start` draws a single category sequence of length 5 (one
shuffled pass over the category set, `random.sample` with the full length);
the category served at position i is element i mod 5 of that fixed sequence,
so every position i + 5 repeats the category of position i rather than coming
from a fresh shuffled pass. -/
theorem start_category_sequence (sample : List String)
    (h : sample.Perm QUESTION_CATEGORIES) :
    (start sample).categories = sample ∧ sample.length = 5 ∧
    (∀ i, served_category { start sample with q_index := i } = sample.get? (i % 5)) ∧
    (∀ i, served_category { start sample with q_index := i + 5 } =
      served_category { start sample with q_index := i }) := by
  have hlen : sample.length = 5 := by simpa using h.length_eq
  refine ⟨rfl, hlen, fun i => rfl, fun i => ?_⟩
  simp [served_category, QUESTION_CATEGORIES, Nat.add_mod_right]

theorem start_category_sequence_witness :
    (start QUESTION_CATEGORIES).categories = QUESTION_CATEGORIES ∧
    QUESTION_CATEGORIES.length = 5 :=
  ⟨(start_category_sequence QUESTION_CATEGORIES (List.Perm.refl _)).1,
   (start_category_sequence QUESTION_CATEGORIES (List.Perm.refl _)).2.1⟩

/-- The retry loop invokes the backend at most `fuel` more times. -/
theorem callGeminiLoop_calls_le (b : ℕ → AttemptOutcome) :
    ∀ fuel attempt delay sleeps calls,
      (callGeminiLoop b fuel attempt delay sleeps calls).calls ≤ calls + fuel
  | 0, _, _, _, _ => by simp [callGeminiLoop]
  | fuel + 1, attempt, delay, sleeps, calls => by
    simp only [callGeminiLoop]
    cases b attempt with
    | raises t => simp
    | responds r =>
      simp only []
      cases hx : extractText r with
      | some t => simp [hx]
      | none =>
        have h := callGeminiLoop_calls_le b fuel (attempt + 1)
          (if 0 < attempt then 2 * delay else delay)
          (if 0 < attempt then sleeps ++ [delay] else sleeps) (calls + 1)
        simp only [hx]
        omega

/-- C2 (bug evidence): a transient backend error on the very first attempt
already escapes `call_gemini` after a single backend call - the `except`
clause names classes that app.py never imports, so handling any exception
raises `NameError`.  Under the reading in which those names resolve,
transient errors are indeed retried with the 2, 4, 8 backoff and exhaust to
`None`, but a non-transient exception still escapes instead of being
swallowed.  The bound of 4 attempts, the no-delay first attempt and the
doubling backoff do hold, as does the `None` result when every attempt yields
a textless response. -/
theorem call_gemini_behaviour :
    (call_gemini fun _ => .raises true).result = .error () ∧
    (call_gemini fun _ => .raises true).calls = 1 ∧
    (call_gemini_resolved fun _ => .raises false).result = .error () ∧
    (call_gemini_resolved fun _ => .raises true) = ⟨.ok none, [2, 4, 8], 4⟩ ∧
    (∀ b, (call_gemini b).calls ≤ 4) ∧
    call_gemini (fun _ => .responds ⟨none, none⟩) = ⟨.ok none, [2, 4, 8], 4⟩ := by
  refine ⟨by decide, by decide, by decide, by decide, fun b => ?_, by decide⟩
  simpa using callGeminiLoop_calls_le b 4 0 2 [] 0

/-- C4 (bug evidence): `generate_question` does raise.  A backend exception -
even the transient kind the spec scenario names - propagates out of
`call_gemini` (whose `except` clause references unimported names) and nothing
in `generate_question` catches it; likewise a response parsing to a JSON
value that is not an object makes `normalize_question` raise `AttributeError`
through the assembler.  The fallback is produced only when no attempt raises,
e.g. when every backend response is textless. -/
theorem generate_question_behaviour :
    generate_question "grammar" 4 1 (fun _ => none) (fun _ _ => .raises true) =
      .error () ∧
    generate_question "grammar" 4 1 (fun _ => some (.jarr []))
      (fun _ _ => .responds ⟨some "[1]", none⟩) = .error () ∧
    generate_question "grammar" 4 1 (fun _ => none) (fun _ _ => .responds ⟨none, none⟩) =
      .ok FALLBACK_QUESTION := by
  exact ⟨by decide, by decide, by decide⟩

/-- C3 counterexample: a Shape-A input whose `question` key is missing, whose
`correct_answer` is the empty string and whose `distractors` list is empty is
still normalized to a question record (it is not rejected), and that record
carries 1 answer text rather than 4 pairwise-distinct ones. -/
theorem normalize_question_no_validation_cex :
    normalize_question (.jobj [("correct_answer", .jstr ""), ("distractors", .jarr [])]) =
      .ok (some ⟨.jnull, .jstr "", .jarr [], .jstr "No explanation provided."⟩) ∧
    (Except.ok (some (⟨.jnull, .jstr "", .jarr [], .jstr "No explanation provided."⟩ : NQ)) ≠
      (.ok none : Except Unit (Option NQ))) := by
  exact ⟨by decide, by decide⟩

/-- The answer texts carried by a normalized question: the correct text
followed by the distractor texts (when the distractor field is a list, which
is the only case a question page can be built from). -/
def answer_texts (q : NQ) : List JValue :=
  match q.distractors with
  | .jarr ds => q.correct :: ds
  | _ => [q.correct]

/-- C3 (amended): normalization is keyed on key presence only.  Without a
`correct_answer` key (or with one but with neither `distractors` nor
`options`) it returns `None`.  With both `correct_answer` and `distractors`
keys it succeeds unconditionally, passing both values through verbatim with
no emptiness, arity or distinctness check; the result has exactly 4 pairwise
distinct answer texts when the input itself supplied 3 distractors pairwise
distinct and distinct from the correct answer.  With `options` (a 4-entry
mapping) and a `correct_answer` naming one of its keys, it returns that
option as correct and the other 3 values in key order, so pairwise-distinct
option values again yield exactly 4 distinct answer texts. -/
theorem normalize_question_shapes :
    (∀ d, jget d "correct_answer" = none → normalize_question (.jobj d) = .ok none) ∧
    (∀ d, (jget d "correct_answer").isSome → jget d "distractors" = none →
      jget d "options" = none → normalize_question (.jobj d) = .ok none) ∧
    (∀ d c dv, jget d "correct_answer" = some c → jget d "distractors" = some dv →
      normalize_question (.jobj d) =
        .ok (some ⟨pyOr (jget d "question") (jget d "prompt"), c, dv,
          (jget d "explanation").getD (.jstr "No explanation provided.")⟩)) ∧
    (∀ d c a b e, jget d "correct_answer" = some (.jstr c) →
      jget d "distractors" = some (.jarr [.jstr a, .jstr b, .jstr e]) →
      c ≠ a → c ≠ b → c ≠ e → a ≠ b → a ≠ e → b ≠ e →
      ∃ q, normalize_question (.jobj d) = .ok (some q) ∧
        (answer_texts q).length = 4 ∧ (answer_texts q).Nodup) ∧
    (∀ d k1 k2 k3 k4 v1 v2 v3 v4 s,
      jget d "correct_answer" = some (.jstr s) → jget d "distractors" = none →
      jget d "options" = some (.jobj [(k1, v1), (k2, v2), (k3, v3), (k4, v4)]) →
      (s = k1 ∨ s = k2 ∨ s = k3 ∨ s = k4) →
      k1 ≠ k2 → k1 ≠ k3 → k1 ≠ k4 → k2 ≠ k3 → k2 ≠ k4 → k3 ≠ k4 →
      v1 ≠ v2 → v1 ≠ v3 → v1 ≠ v4 → v2 ≠ v3 → v2 ≠ v4 → v3 ≠ v4 →
      ∃ q, normalize_question (.jobj d) = .ok (some q) ∧
        (answer_texts q).length = 4 ∧ (answer_texts q).Nodup) := by
  refine ⟨?_, ?_, ?_, ?_, ?_⟩
  · intro d h
    simp [normalize_question, normalize_obj, h]
  · intro d h1 h2 h3
    simp [normalize_question, normalize_obj, h2, h3]
  · intro d c dv hc hdv
    simp [normalize_question, normalize_obj, hc, hdv]
  · intro d c a b e hc hdv hca hcb hce hab hae hbe
    refine ⟨⟨pyOr (jget d "question") (jget d "prompt"), .jstr c,
      .jarr [.jstr a, .jstr b, .jstr e],
      (jget d "explanation").getD (.jstr "No explanation provided.")⟩, ?_, rfl, ?_⟩
    · simp [normalize_question, normalize_obj, hc, hdv]
    · simp [answer_texts, hca, hcb, hce, hab, hae, hbe]
  · intro d k1 k2 k3 k4 v1 v2 v3 v4 s hc hd ho hs h12 h13 h14 h23 h24 h34 u12 u13 u14 u23 u24 u34
    rcases hs with hs | hs | hs | hs <;> subst hs
    · have e2 : (k2 == s) = false := beq_eq_false_iff_ne.mpr (Ne.symm h12)
      have e3 : (k3 == s) = false := beq_eq_false_iff_ne.mpr (Ne.symm h13)
      have e4 : (k4 == s) = false := beq_eq_false_iff_ne.mpr (Ne.symm h14)
      refine ⟨⟨pyOr (jget d "question") (jget d "prompt"), v1, .jarr [v2, v3, v4],
        (jget d "explanation").getD (.jstr "No explanation provided.")⟩, ?_, rfl, ?_⟩
      · simp [normalize_question, normalize_obj, hc, hd, ho, List.find?, List.filter,
          e2, e3, e4]
      · simp [answer_texts, u12, u13, u14, u23, u24, u34]
    · have e1 : (k1 == s) = false := beq_eq_false_iff_ne.mpr h12
      have e3 : (k3 == s) = false := beq_eq_false_iff_ne.mpr (Ne.symm h23)
      have e4 : (k4 == s) = false := beq_eq_false_iff_ne.mpr (Ne.symm h24)
      refine ⟨⟨pyOr (jget d "question") (jget d "prompt"), v2, .jarr [v1, v3, v4],
        (jget d "explanation").getD (.jstr "No explanation provided.")⟩, ?_, rfl, ?_⟩
      · simp [normalize_question, normalize_obj, hc, hd, ho, List.find?, List.filter,
          e1, e3, e4]
      · simp [answer_texts, u12.symm, u23, u24, u13, u14, u34]
    · have e1 : (k1 == s) = false := beq_eq_false_iff_ne.mpr h13
      have e2 : (k2 == s) = false := beq_eq_false_iff_ne.mpr h23
      have e4 : (k4 == s) = false := beq_eq_false_iff_ne.mpr (Ne.symm h34)
      refine ⟨⟨pyOr (jget d "question") (jget d "prompt"), v3, .jarr [v1, v2, v4],
        (jget d "explanation").getD (.jstr "No explanation provided.")⟩, ?_, rfl, ?_⟩
      · simp [normalize_question, normalize_obj, hc, hd, ho, List.find?, List.filter,
          e1, e2, e4]
      · simp [answer_texts, u13.symm, u23.symm, u34, u12, u14, u24]
    · have e1 : (k1 == s) = false := beq_eq_false_iff_ne.mpr h14
      have e2 : (k2 == s) = false := beq_eq_false_iff_ne.mpr h24
      have e3 : (k3 == s) = false := beq_eq_false_iff_ne.mpr h34
      refine ⟨⟨pyOr (jget d "question") (jget d "prompt"), v4, .jarr [v1, v2, v3],
        (jget d "explanation").getD (.jstr "No explanation provided.")⟩, ?_, rfl, ?_⟩
      · simp [normalize_question, normalize_obj, hc, hd, ho, List.find?, List.filter,
          e1, e2, e3]
      · simp [answer_texts, u14.symm, u24.symm, u34.symm, u12, u13, u23]

/-- When the shuffled options are 4 pairwise-distinct texts among which the
correct one occurs, the returned label sits at the position of the correct
text and is the unique label mapped to it. -/
theorem shuffle_options_nodup_first (correct a b c d : String) (ds : List String)
    (sh : List String → List String) (hsh : sh (ds ++ [correct]) = [a, b, c, d])
    (hnd : ([a, b, c, d] : List String).Nodup)
    (hmem : correct ∈ ([a, b, c, d] : List String)) :
    ∃ i L, i < 4 ∧ ([a, b, c, d] : List String).get? i = some correct ∧
      (["A", "B", "C", "D"] : List String).get? i = some L ∧
      (shuffle_options correct ds sh).2 = some L ∧
      ∀ kv ∈ (shuffle_options correct ds sh).1, (kv.2 = correct ↔ kv.1 = L) := by
  have hso : (shuffle_options correct ds sh).1 = [("A", a), ("B", b), ("C", c), ("D", d)] := by
    simp [shuffle_options, hsh]
  simp only [List.mem_cons, List.not_mem_nil, or_false] at hmem
  have hab : a ≠ b := by intro h; subst h; simp at hnd
  have hac : a ≠ c := by intro h; subst h; simp at hnd
  have had : a ≠ d := by intro h; subst h; simp at hnd
  have hbc : b ≠ c := by intro h; subst h; simp at hnd
  have hbd : b ≠ d := by intro h; subst h; simp at hnd
  have hcd : c ≠ d := by intro h; subst h; simp at hnd
  have hA : ("A" : String) ≠ "B" ∧ ("A" : String) ≠ "C" ∧ ("A" : String) ≠ "D" ∧
      ("B" : String) ≠ "C" ∧ ("B" : String) ≠ "D" ∧ ("C" : String) ≠ "D" := by decide
  rcases hmem with h | h | h | h <;> subst h
  · refine ⟨0, "A", by omega, rfl, rfl, by simp [shuffle_options, hsh], ?_⟩
    intro kv hkv
    rw [hso] at hkv
    simp only [List.mem_cons, List.not_mem_nil, or_false] at hkv
    rcases hkv with rfl | rfl | rfl | rfl <;>
      simp [Ne.symm hab, Ne.symm hac, Ne.symm had, hA.1, hA.2.1, hA.2.2.1]
  · refine ⟨1, "B", by omega, rfl, rfl, by simp [shuffle_options, hsh, hab], ?_⟩
    intro kv hkv
    rw [hso] at hkv
    simp only [List.mem_cons, List.not_mem_nil, or_false] at hkv
    rcases hkv with rfl | rfl | rfl | rfl <;>
      simp [hab, Ne.symm hbc, Ne.symm hbd, Ne.symm hA.1, hA.2.2.2.1, hA.2.2.2.2.1]
  · refine ⟨2, "C", by omega, rfl, rfl, by simp [shuffle_options, hsh, hac, hbc], ?_⟩
    intro kv hkv
    rw [hso] at hkv
    simp only [List.mem_cons, List.not_mem_nil, or_false] at hkv
    rcases hkv with rfl | rfl | rfl | rfl <;>
      simp [hac, hbc, Ne.symm hcd, Ne.symm hA.2.1, Ne.symm hA.2.2.2.1, hA.2.2.2.2.2]
  · refine ⟨3, "D", by omega, rfl, rfl, by simp [shuffle_options, hsh, had, hbd, hcd], ?_⟩
    intro kv hkv
    rw [hso] at hkv
    simp only [List.mem_cons, List.not_mem_nil, or_false] at hkv
    rcases hkv with rfl | rfl | rfl | rfl <;>
      simp [had, hbd, hcd, Ne.symm hA.2.2.1, Ne.symm hA.2.2.2.2.1, Ne.symm hA.2.2.2.2.2]

/-- A list of length 4 is an explicit 4-element list. -/
theorem list_length_eq_four {α : Type} (l : List α) (h : l.length = 4) :
    ∃ a b c d, l = [a, b, c, d] := by
  rcases l with _ | ⟨a, l⟩
  · simp at h
  rcases l with _ | ⟨b, l⟩
  · simp at h
  rcases l with _ | ⟨c, l⟩
  · simp at h
  rcases l with _ | ⟨d, l⟩
  · simp at h
  rcases l with _ | ⟨e, l⟩
  · exact ⟨a, b, c, d, rfl⟩
  · simp [List.length] at h

/-- C10: the returned label is the first label in the fixed A, B, C, D order
whose zipped text equals the correct text (first conjunct, an exact
characterization).  Consequently a duplicated text can make the returned
label an earlier position that carries the duplicate while a later label also
holds the correct text (second conjunct, concrete run).  With 4 pairwise
distinct texts the returned label is the unique label mapped to the correct
text (third conjunct). -/
theorem shuffle_options_first_label :
    (∀ (correct : String) (ds : List String) (sh : List String → List String) (L : String),
      (shuffle_options correct ds sh).2 = some L ↔
        ∃ pre x post,
          (["A", "B", "C", "D"] : List String).zip (sh (ds ++ [correct])) =
            pre ++ (L, x) :: post ∧ x = correct ∧ ∀ kv ∈ pre, kv.2 ≠ correct) ∧
    ((shuffle_options "x" ["x", "y", "z"] (fun _ => ["y", "x", "z", "x"])).1 =
        [("A", "y"), ("B", "x"), ("C", "z"), ("D", "x")] ∧
      (shuffle_options "x" ["x", "y", "z"] (fun _ => ["y", "x", "z", "x"])).2 = some "B") ∧
    (∀ correct d1 d2 d3 : String, ∀ sh : List String → List String,
      correct ≠ d1 → correct ≠ d2 → correct ≠ d3 → d1 ≠ d2 → d1 ≠ d3 → d2 ≠ d3 →
      (sh ([d1, d2, d3] ++ [correct])).Perm ([d1, d2, d3] ++ [correct]) →
      ∃ L, (shuffle_options correct [d1, d2, d3] sh).2 = some L ∧
        ∀ kv ∈ (shuffle_options correct [d1, d2, d3] sh).1,
          (kv.2 = correct ↔ kv.1 = L)) := by
  refine ⟨?_, ⟨by decide, by decide⟩, ?_⟩
  · intro correct ds sh L
    simp only [shuffle_options]
    rw [Option.map_eq_some']
    constructor
    · rintro ⟨kv, hfind, hL⟩
      rw [List.find?_eq_some] at hfind
      obtain ⟨hP, as, bs, heq, hpre⟩ := hfind
      obtain ⟨k, v⟩ := kv
      simp only at hL
      subst hL
      refine ⟨as, v, bs, heq, of_decide_eq_true hP, ?_⟩
      intro kv2 hkv2
      simpa using hpre kv2 hkv2
    · rintro ⟨pre, x, post, heq, hx, hpre⟩
      refine ⟨(L, x), ?_, rfl⟩
      rw [List.find?_eq_some]
      refine ⟨by simpa using hx, pre, post, heq, ?_⟩
      intro y hy
      simpa using hpre y hy
  · intro correct d1 d2 d3 sh h1 h2 h3 h4 h5 h6 hperm
    have hlen : (sh ([d1, d2, d3] ++ [correct])).length = 4 := by
      simpa using hperm.length_eq
    obtain ⟨a, b, c, d, hl⟩ := list_length_eq_four _ hlen
    have hndbase : (([d1, d2, d3] ++ [correct]) : List String).Nodup := by
      simp [List.nodup_cons, Ne.symm h1, Ne.symm h2, Ne.symm h3, h4, h5, h6]
    have hnd : ([a, b, c, d] : List String).Nodup := by
      rw [← hl]
      exact (hperm.nodup_iff).mpr hndbase
    have hmem : correct ∈ ([a, b, c, d] : List String) := by
      rw [← hl]
      exact (hperm.mem_iff).mpr (by simp)
    obtain ⟨i, L, hi, hgi, hLi, hres, huniq⟩ :=
      shuffle_options_nodup_first correct a b c d [d1, d2, d3] sh hl hnd hmem
    exact ⟨L, hres, huniq⟩

theorem shuffle_options_first_label_witness :
    ∃ L, (shuffle_options "w" ["y", "z", "v"] (fun _ => ["y", "w", "z", "v"])).2 = some L ∧
      ∀ kv ∈ (shuffle_options "w" ["y", "z", "v"] (fun _ => ["y", "w", "z", "v"])).1,
        (kv.2 = "w" ↔ kv.1 = L) :=
  shuffle_options_first_label.2.2 "w" "y" "z" "v" (fun _ => ["y", "w", "z", "v"])
    (by decide) (by decide) (by decide) (by decide) (by decide) (by decide) (by decide)

/-- Model of `random.shuffle` on a 4-element list via an index permutation:
entry i of the output is entry `p i` of the input.  As `p` ranges uniformly
over the permutations of [0, 1, 2, 3] this is exactly a uniformly random
permutation of the list. -/
def idx_shuffle (p : List (Fin 4)) (l : List String) : List String :=
  p.map fun i => l.getD i.val ""

/-- The text at index i of the 4 combined answer texts
`distractors + [correct]`. -/
def text4 (d1 d2 d3 c : String) (i : Fin 4) : String :=
  ([d1, d2, d3, c] : List String).getD i.val ""

theorem text4_injective (d1 d2 d3 c : String)
    (h1 : c ≠ d1) (h2 : c ≠ d2) (h3 : c ≠ d3)
    (h4 : d1 ≠ d2) (h5 : d1 ≠ d3) (h6 : d2 ≠ d3) :
    Function.Injective (text4 d1 d2 d3 c) := by
  intro i j hij
  fin_cases i <;> fin_cases j <;> simp_all [text4, List.getD]

/-- With 4 pairwise-distinct texts, an index-permutation shuffle puts the
correct text at a unique position, the returned label is the label of that
position, and it is the unique label mapped to the correct text. -/
theorem shuffle_idx_first (c d1 d2 d3 : String)
    (h1 : c ≠ d1) (h2 : c ≠ d2) (h3 : c ≠ d3)
    (h4 : d1 ≠ d2) (h5 : d1 ≠ d3) (h6 : d2 ≠ d3) (i0 i1 i2 i3 : Fin 4)
    (hp : ([i0, i1, i2, i3] : List (Fin 4)).Perm (List.finRange 4)) :
    ∃ i L, i < 4 ∧
      ([text4 d1 d2 d3 c i0, text4 d1 d2 d3 c i1, text4 d1 d2 d3 c i2,
        text4 d1 d2 d3 c i3] : List String).get? i = some c ∧
      (["A", "B", "C", "D"] : List String).get? i = some L ∧
      (shuffle_options c [d1, d2, d3] (idx_shuffle [i0, i1, i2, i3])).2 = some L ∧
      ∀ kv ∈ (shuffle_options c [d1, d2, d3] (idx_shuffle [i0, i1, i2, i3])).1,
        (kv.2 = c ↔ kv.1 = L) := by
  have hpn : ([i0, i1, i2, i3] : List (Fin 4)).Nodup :=
    hp.nodup_iff.mpr (List.nodup_finRange 4)
  have hnodup : ([text4 d1 d2 d3 c i0, text4 d1 d2 d3 c i1, text4 d1 d2 d3 c i2,
      text4 d1 d2 d3 c i3] : List String).Nodup :=
    hpn.map (text4_injective d1 d2 d3 c h1 h2 h3 h4 h5 h6)
  have h3m : (3 : Fin 4) ∈ ([i0, i1, i2, i3] : List (Fin 4)) := hp.mem_iff.mpr (by decide)
  have hmem : c ∈ ([text4 d1 d2 d3 c i0, text4 d1 d2 d3 c i1, text4 d1 d2 d3 c i2,
      text4 d1 d2 d3 c i3] : List String) :=
    List.mem_map_of_mem (text4 d1 d2 d3 c) h3m
  exact shuffle_options_nodup_first c _ _ _ _ [d1, d2, d3]
    (idx_shuffle [i0, i1, i2, i3]) rfl hnodup hmem

/-- The returned label is the label at index k exactly when the shuffle sent
slot k to the correct text (index 3 of the combined list). -/
theorem shuffle_idx_label_iff (c d1 d2 d3 : String)
    (h1 : c ≠ d1) (h2 : c ≠ d2) (h3 : c ≠ d3)
    (h4 : d1 ≠ d2) (h5 : d1 ≠ d3) (h6 : d2 ≠ d3)
    (p : List (Fin 4)) (hp : p.Perm (List.finRange 4)) (k : ℕ) (L : String)
    (hkL : (["A", "B", "C", "D"] : List String).get? k = some L) :
    ((shuffle_options c [d1, d2, d3] (idx_shuffle p)).2 = some L ↔
      p.get? k = some (3 : Fin 4)) := by
  have hlen : p.length = 4 := by simpa using hp.length_eq
  obtain ⟨i0, i1, i2, i3, hl⟩ := list_length_eq_four p hlen
  subst hl
  obtain ⟨i, Lr, hi, hgi, hLi, hres, huniq⟩ :=
    shuffle_idx_first c d1 d2 d3 h1 h2 h3 h4 h5 h6 i0 i1 i2 i3 hp
  have hk4 : k < 4 := by
    rcases List.get?_eq_some.1 hkL with ⟨hk, _⟩
    simpa using hk
  have hso : (shuffle_options c [d1, d2, d3] (idx_shuffle [i0, i1, i2, i3])).1 =
      [("A", text4 d1 d2 d3 c i0), ("B", text4 d1 d2 d3 c i1),
       ("C", text4 d1 d2 d3 c i2), ("D", text4 d1 d2 d3 c i3)] := rfl
  have hinj := text4_injective d1 d2 d3 c h1 h2 h3 h4 h5 h6
  interval_cases k
  · simp only [List.get?] at hkL
    cases hkL
    have hkv := huniq ("A", text4 d1 d2 d3 c i0) (by rw [hso]; simp)
    constructor
    · intro h0
      have hLr : Lr = "A" := Option.some.inj (hres.symm.trans h0)
      have htc : text4 d1 d2 d3 c i0 = c := hkv.mpr hLr.symm
      have : i0 = 3 := hinj htc
      simp [this]
    · intro h0
      have hi0 : i0 = 3 := by simpa using h0
      have htc : text4 d1 d2 d3 c i0 = c := by rw [hi0]; rfl
      rw [hres, ← hkv.mp htc]
  · simp only [List.get?] at hkL
    cases hkL
    have hkv := huniq ("B", text4 d1 d2 d3 c i1) (by rw [hso]; simp)
    constructor
    · intro h0
      have hLr : Lr = "B" := Option.some.inj (hres.symm.trans h0)
      have htc : text4 d1 d2 d3 c i1 = c := hkv.mpr hLr.symm
      have : i1 = 3 := hinj htc
      simp [this]
    · intro h0
      have hi1 : i1 = 3 := by simpa using h0
      have htc : text4 d1 d2 d3 c i1 = c := by rw [hi1]; rfl
      rw [hres, ← hkv.mp htc]
  · simp only [List.get?] at hkL
    cases hkL
    have hkv := huniq ("C", text4 d1 d2 d3 c i2) (by rw [hso]; simp)
    constructor
    · intro h0
      have hLr : Lr = "C" := Option.some.inj (hres.symm.trans h0)
      have htc : text4 d1 d2 d3 c i2 = c := hkv.mpr hLr.symm
      have : i2 = 3 := hinj htc
      simp [this]
    · intro h0
      have hi2 : i2 = 3 := by simpa using h0
      have htc : text4 d1 d2 d3 c i2 = c := by rw [hi2]; rfl
      rw [hres, ← hkv.mp htc]
  · simp only [List.get?] at hkL
    cases hkL
    have hkv := huniq ("D", text4 d1 d2 d3 c i3) (by rw [hso]; simp)
    constructor
    · intro h0
      have hLr : Lr = "D" := Option.some.inj (hres.symm.trans h0)
      have htc : text4 d1 d2 d3 c i3 = c := hkv.mpr hLr.symm
      have : i3 = 3 := hinj htc
      simp [this]
    · intro h0
      have hi3 : i3 = 3 := by simpa using h0
      have htc : text4 d1 d2 d3 c i3 = c := by rw [hi3]; rfl
      rw [hres, ← hkv.mp htc]

/-- C7 counterexample: when a distractor text duplicates the correct text
(correct "x" with distractors ["x", "y", "z"]), the label-to-text map is not
injective - so not a bijection onto 4 texts - and the four labels are not
equally likely: over the 24 shuffle permutations the returned label is A for
12 of them and D for none. -/
theorem shuffle_options_bias_cex :
    ¬ (((shuffle_options "x" ["x", "y", "z"] (fun _ => ["x", "y", "x", "z"])).1.map
        fun kv => kv.2).Nodup) ∧
    ((List.finRange 4).permutations.countP fun p =>
      (shuffle_options "x" ["x", "y", "z"] (idx_shuffle p)).2 == some "A") = 12 ∧
    ((List.finRange 4).permutations.countP fun p =>
      (shuffle_options "x" ["x", "y", "z"] (idx_shuffle p)).2 == some "D") = 0 ∧
    (12 : ℕ) ≠ 0 := by
  refine ⟨by decide, ?_, ?_, by decide⟩
  · rw [(List.permutations_perm_permutations' (List.finRange 4)).countP_eq]
    decide
  · rw [(List.permutations_perm_permutations' (List.finRange 4)).countP_eq]
    decide

/-- C7 (amended): for 4 pairwise-distinct texts and any permutation used by
the shuffle, the label-to-text map carries the labels A, B, C, D in order and
its texts are exactly the 4 input texts (a bijection), the returned label is
the unique label mapped to the correct text, and over the 24 permutations
each of the four labels is returned exactly 6 times - no positional bias.
With duplicated texts none of this is guaranteed (see the counterexample). -/
theorem shuffle_options_fair (c d1 d2 d3 : String)
    (h1 : c ≠ d1) (h2 : c ≠ d2) (h3 : c ≠ d3)
    (h4 : d1 ≠ d2) (h5 : d1 ≠ d3) (h6 : d2 ≠ d3) :
    (∀ p : List (Fin 4), p.Perm (List.finRange 4) →
      ((shuffle_options c [d1, d2, d3] (idx_shuffle p)).1.map fun kv => kv.1) =
        ["A", "B", "C", "D"] ∧
      (((shuffle_options c [d1, d2, d3] (idx_shuffle p)).1.map fun kv => kv.2).Perm
        [d1, d2, d3, c]) ∧
      (∃ L, (shuffle_options c [d1, d2, d3] (idx_shuffle p)).2 = some L ∧
        ∀ kv ∈ (shuffle_options c [d1, d2, d3] (idx_shuffle p)).1,
          (kv.2 = c ↔ kv.1 = L))) ∧
    (∀ L ∈ (["A", "B", "C", "D"] : List String),
      ((List.finRange 4).permutations.countP fun p =>
        (shuffle_options c [d1, d2, d3] (idx_shuffle p)).2 == some L) = 6) := by
  constructor
  · intro p hp
    have hlen : p.length = 4 := by simpa using hp.length_eq
    obtain ⟨i0, i1, i2, i3, hl⟩ := list_length_eq_four p hlen
    subst hl
    refine ⟨rfl, ?_, ?_⟩
    · exact hp.map (text4 d1 d2 d3 c)
    · obtain ⟨i, L, hi, hgi, hLi, hres, huniq⟩ :=
        shuffle_idx_first c d1 d2 d3 h1 h2 h3 h4 h5 h6 i0 i1 i2 i3 hp
      exact ⟨L, hres, huniq⟩
  · intro L hL
    rw [(List.permutations_perm_permutations' (List.finRange 4)).countP_eq]
    simp only [List.mem_cons, List.not_mem_nil, or_false] at hL
    rcases hL with rfl | rfl | rfl | rfl
    · have hcong : ∀ p ∈ (List.finRange 4).permutations',
          (((shuffle_options c [d1, d2, d3] (idx_shuffle p)).2 == some "A") = true ↔
            ((p.get? 0 == some (3 : Fin 4)) = true)) := by
        intro p hp'
        have hp : p.Perm (List.finRange 4) := List.mem_permutations'.mp hp'
        simp only [beq_iff_eq]
        exact shuffle_idx_label_iff c d1 d2 d3 h1 h2 h3 h4 h5 h6 p hp 0 "A" rfl
      rw [List.countP_congr hcong]
      decide
    · have hcong : ∀ p ∈ (List.finRange 4).permutations',
          (((shuffle_options c [d1, d2, d3] (idx_shuffle p)).2 == some "B") = true ↔
            ((p.get? 1 == some (3 : Fin 4)) = true)) := by
        intro p hp'
        have hp : p.Perm (List.finRange 4) := List.mem_permutations'.mp hp'
        simp only [beq_iff_eq]
        exact shuffle_idx_label_iff c d1 d2 d3 h1 h2 h3 h4 h5 h6 p hp 1 "B" rfl
      rw [List.countP_congr hcong]
      decide
    · have hcong : ∀ p ∈ (List.finRange 4).permutations',
          (((shuffle_options c [d1, d2, d3] (idx_shuffle p)).2 == some "C") = true ↔
            ((p.get? 2 == some (3 : Fin 4)) = true)) := by
        intro p hp'
        have hp : p.Perm (List.finRange 4) := List.mem_permutations'.mp hp'
        simp only [beq_iff_eq]
        exact shuffle_idx_label_iff c d1 d2 d3 h1 h2 h3 h4 h5 h6 p hp 2 "C" rfl
      rw [List.countP_congr hcong]
      decide
    · have hcong : ∀ p ∈ (List.finRange 4).permutations',
          (((shuffle_options c [d1, d2, d3] (idx_shuffle p)).2 == some "D") = true ↔
            ((p.get? 3 == some (3 : Fin 4)) = true)) := by
        intro p hp'
        have hp : p.Perm (List.finRange 4) := List.mem_permutations'.mp hp'
        simp only [beq_iff_eq]
        exact shuffle_idx_label_iff c d1 d2 d3 h1 h2 h3 h4 h5 h6 p hp 3 "D" rfl
      rw [List.countP_congr hcong]
      decide

theorem shuffle_options_fair_witness :
    ((List.finRange 4).permutations.countP fun p =>
      (shuffle_options "w" ["x", "y", "z"] (idx_shuffle p)).2 == some "A") = 6 :=
  (shuffle_options_fair "w" "x" "y" "z" (by decide) (by decide) (by decide)
    (by decide) (by decide) (by decide)).2 "A" (by decide)

theorem normalize_question_shapes_witness :
    ∃ q,
      normalize_question (.jobj [("question", .jstr "Q"), ("correct_answer", .jstr "a"),
        ("distractors", .jarr [.jstr "b", .jstr "c", .jstr "d"])]) = .ok (some q) ∧
      (answer_texts q).length = 4 ∧ (answer_texts q).Nodup :=
  normalize_question_shapes.2.2.2.1
    [("question", .jstr "Q"), ("correct_answer", .jstr "a"),
      ("distractors", .jarr [.jstr "b", .jstr "c", .jstr "d"])]
    "a" "b" "c" "d" (by decide) (by decide) (by decide) (by decide) (by decide)
    (by decide) (by decide) (by decide)
